import Mathlib

/-!
Verification development for the smart-store data-preparation repository.

The central object is `DataScrubber` (src/analytics_project/data_preparation/
data_scrubber.py): a wrapper around a pandas DataFrame whose methods mutate
`self.df` and return it.  We embed the DataFrame as a `Table` (a list of
column names plus a list of rows, each row a list of cells), each scrubber
method as a function `Table → ScrubResult` recording the stored table, the
returned table and any raised exception, and the warehouse loader
`load_data_to_db` (src/analytics_project/etl_to_dw.py) as pure functions on
tables, with the `np.random.randint(0, 365, ...)` draw modelled as an
arbitrary sequence of naturals taken mod 365.
-/

/-- A cell of a DataFrame: a string, a number (ints and floats are both
modelled as rationals), a parsed datetime, or a missing value (NaN/NA). -/
inductive Cell where
  | str (s : String)
  | num (q : ℚ)
  | date (y m d : Nat)
  | na
deriving DecidableEq, Repr

/-- Drop whitespace from both ends of a character list. -/
def stripChars (l : List Char) : List Char :=
  ((l.dropWhile Char.isWhitespace).reverse.dropWhile Char.isWhitespace).reverse

/-- Python `str.strip()`. -/
def strip (s : String) : String := String.mk (stripChars s.toList)

/-- Python `str.lower()` (ASCII). -/
def strLower (s : String) : String := String.mk (s.toList.map Char.toLower)

/-- Python `str.upper()` (ASCII). -/
def strUpper (s : String) : String := String.mk (s.toList.map Char.toUpper)

/-- Helper for Python `str.title()`: the Bool records whether the previous
character was alphabetic. -/
def titleAux : Bool → List Char → List Char
  | _, [] => []
  | prevAlpha, c :: rest =>
    (if c.isAlpha then (if prevAlpha then c.toLower else c.toUpper) else c)
      :: titleAux c.isAlpha rest

/-- Python `str.title()` (ASCII): first letter of each alphabetic run is
upper-cased, the rest lower-cased. -/
def strTitle (s : String) : String := String.mk (titleAux false s.toList)

/-- `pad2 n` prints `n` with at least two digits, as `strftime` does. -/
def pad2 (n : Nat) : String := if n < 10 then "0" ++ toString n else toString n

/-- Rendering of a rational the way `astype(str)` renders a number. -/
def qToStr (q : ℚ) : String :=
  if q.den = 1 then toString q.num else toString q.num ++ "/" ++ toString q.den

/-- Rendering of a datetime cell as a string. -/
def dateToStr (y m d : Nat) : String :=
  toString y ++ "-" ++ pad2 m ++ "-" ++ pad2 d

/-- Python `astype(str)` on one cell; `str(float('nan'))` is `"nan"`. -/
def cellToStr : Cell → String
  | .str s => s
  | .num q => qToStr q
  | .date y m d => dateToStr y m d
  | .na => "nan"

/-- Numeric value of an ASCII digit. -/
def digitVal (c : Char) : Nat := c.toNat - 48

/-- Parse a non-empty all-digit character list. -/
def parseNatDigits : List Char → Option Nat
  | [] => none
  | cs => if cs.all Char.isDigit then
            some (cs.foldl (fun a c => a * 10 + digitVal c) 0)
          else none

/-- Parse an optionally signed integer literal. -/
def parseIntLit (s : String) : Option Int :=
  match s.toList with
  | '-' :: rest => (parseNatDigits rest).map (fun n => -(n : Int))
  | '+' :: rest => (parseNatDigits rest).map (fun n => (n : Int))
  | cs => (parseNatDigits cs).map (fun n => (n : Int))

/-- Parse a decimal literal `intpart.fracpart` or a plain integer, as
`pd.to_numeric` accepts. -/
def parseNumLit (s : String) : Option ℚ :=
  match parseIntLit s with
  | some n => some (n : ℚ)
  | none =>
    match s.toList.splitOn '.' with
    | [ip, fp] =>
      if fp ≠ [] ∧ fp.all Char.isDigit then
        let frac : ℚ := (fp.foldl (fun a c => a * 10 + digitVal c) 0 : ℚ) /
                        ((10 : ℚ) ^ fp.length)
        match ip with
        | '-' :: ipd => (parseNatDigits ipd).map (fun n => -((n : ℚ) + frac))
        | '+' :: ipd => (parseNatDigits ipd).map (fun n => (n : ℚ) + frac)
        | _ => (parseNatDigits ip).map (fun n => (n : ℚ) + frac)
      else none
    | _ => none

/-- `pd.to_numeric(·, errors="coerce")` on one cell: numbers pass through,
numeric strings parse, everything else becomes missing. -/
def toNumericCoerce : Cell → Cell
  | .num q => .num q
  | .str s => match parseNumLit (strip s) with
              | some q => .num q
              | none => .na
  | .date _ _ _ => .na
  | .na => .na

/-- Parse a `"YYYY-MM-DD"` date string. -/
def parseDateLit (s : String) : Option (Nat × Nat × Nat) :=
  match s.toList.splitOn '-' with
  | [ys, ms, ds] =>
    match parseNatDigits ys, parseNatDigits ms, parseNatDigits ds with
    | some y, some m, some d =>
      if ys.length = 4 ∧ ms.length = 2 ∧ ds.length = 2 ∧
         1 ≤ m ∧ m ≤ 12 ∧ 1 ≤ d ∧ d ≤ 31 then some (y, m, d) else none
    | _, _, _ => none
  | _ => none

/-- `pd.to_datetime(·, errors="coerce")` on one cell: dates pass through,
ISO date strings parse, numbers are epoch offsets (hence valid dates),
everything else becomes missing. -/
def toDatetimeCoerce : Cell → Cell
  | .date y m d => .date y m d
  | .str s => match parseDateLit (strip s) with
              | some (y, m, d) => .date y m d
              | none => .na
  | .num _ => .date 1970 1 1
  | .na => .na

/-- A DataFrame: a list of column labels and a list of rows. -/
structure Table where
  cols : List String
  rows : List (List Cell)
deriving DecidableEq, Repr

/-- All rows have exactly one cell per column. -/
def Table.Wf (t : Table) : Prop := ∀ r ∈ t.rows, r.length = t.cols.length

instance (t : Table) : Decidable t.Wf := by
  unfold Table.Wf; infer_instance

/-- Position of the first occurrence of a column label. -/
def colIdx : List String → String → Option Nat
  | [], _ => none
  | c0 :: rest, c => if c0 = c then some 0 else (colIdx rest c).map (· + 1)

/-- Replace the cell at position `j` of a row by `f` of its current value
(out-of-range positions are untouched). -/
def mapAt (j : Nat) (f : Cell → Cell) (r : List Cell) : List Cell :=
  r.set j (f (r.getD j Cell.na))

/-- Apply `f` to the cells of column number `j` in every row, keeping the
same column labels (an in-place `self.df[column] = ...` assignment). -/
def Table.mapColumn (t : Table) (j : Nat) (f : Cell → Cell) : Table :=
  ⟨t.cols, t.rows.map (mapAt j f)⟩

/-- The cell in row `i`, column labelled `c` (missing coordinates read as
`na`). -/
def cellAt (t : Table) (i : Nat) (c : String) : Cell :=
  match colIdx t.cols c with
  | some j => (t.rows.getD i []).getD j Cell.na
  | none => Cell.na

/-- `camel_to_snake` from data_scrubber.py: strip, insert `_` at every
boundary between a lowercase letter or digit and an uppercase letter, then
lower-case. -/
def camelToSnakeAux : List Char → List Char
  | [] => []
  | c :: rest =>
    match rest with
    | [] => [c]
    | d :: _ =>
      if (c.isLower || c.isDigit) && d.isUpper
      then c :: '_' :: camelToSnakeAux rest
      else c :: camelToSnakeAux rest

def camel_to_snake (name : String) : String :=
  String.mk ((camelToSnakeAux (stripChars name.toList)).map Char.toLower)

/-- A Python exception raised by a scrubber method. -/
inductive PyErr where
  | valueError (msg : String)
  | keyError (msg : String)
  | typeError (msg : String)
deriving DecidableEq, Repr

def PyErr.isValueError : PyErr → Bool
  | .valueError _ => true
  | _ => false

/-- Outcome of one `DataScrubber` method call: on success the new stored
table `self.df` and the returned value; on an exception the raised error and
the table stored in `self.df` at the moment of the raise. -/
inductive ScrubResult where
  | ok (df ret : Table)
  | error (e : PyErr) (df : Table)
deriving DecidableEq, Repr

/-- `duplicated(keep="first")` walk: keep each row whose key is not in the
set of keys already seen. -/
def dedupBySeen (key : List Cell → List Cell) (seen : List (List Cell)) :
    List (List Cell) → List (List Cell)
  | [] => []
  | r :: rs =>
    if key r ∈ seen then dedupBySeen key seen rs
    else r :: dedupBySeen key (key r :: seen) rs

/-- `drop_duplicates(keep="first")` judged by a key function: keep each row
whose key has not appeared in an earlier row. -/
def dedupBy (key : List Cell → List Cell) (l : List (List Cell)) :
    List (List Cell) :=
  dedupBySeen key [] l

/-- Restriction of a row to a subset of columns, the key used by
`drop_duplicates(subset=...)`. -/
def rowKey (t : Table) (subset : List String) (r : List Cell) : List Cell :=
  subset.map (fun c => match colIdx t.cols c with
    | some j => r.getD j Cell.na
    | none => Cell.na)

/-- `DataScrubber.standardize_column_names`: rewrite every column label with
`camel_to_snake` (mutates the columns of the stored object in place). -/
def standardize_column_names (t : Table) : ScrubResult :=
  let t2 : Table := ⟨t.cols.map camel_to_snake, t.rows⟩
  .ok t2 t2

/-- `DataScrubber.standardize_categorical_column`: `astype(str)`, strip and
title-case the column.  There is no explicit column check: reading
`self.df[column]` on an absent label raises `KeyError`. -/
def standardize_categorical_column (t : Table) (column : String) : ScrubResult :=
  match colIdx t.cols column with
  | none => .error (.keyError column) t
  | some j =>
    let t2 := t.mapColumn j (fun c => .str (strTitle (strip (cellToStr c))))
    .ok t2 t2

/-- `DataScrubber.remove_duplicate_records`: `if subset:` (truthy only for a
non-empty list) dedupe on the subset key, raising `KeyError` when a subset
label is absent; otherwise dedupe on whole rows.  `keep="first"` both ways. -/
def remove_duplicate_records (t : Table) (subset : Option (List String)) : ScrubResult :=
  match subset with
  | some s =>
    if s.isEmpty then
      let t2 : Table := ⟨t.cols, dedupBy id t.rows⟩
      .ok t2 t2
    else if s.all (fun c => decide (c ∈ t.cols)) then
      let t2 : Table := ⟨t.cols, dedupBy (rowKey t s) t.rows⟩
      .ok t2 t2
    else .error (.keyError "subset columns not found") t
  | none =>
    let t2 : Table := ⟨t.cols, dedupBy id t.rows⟩
    .ok t2 t2

/-- `dropna()`: keep the rows that contain no missing value. -/
def dropna (t : Table) : Table :=
  ⟨t.cols, t.rows.filter (fun r => !(r.any (fun c => decide (c = Cell.na))))⟩

/-- `fillna(v)`: replace every missing cell by `v`. -/
def fillna (t : Table) (v : Cell) : Table :=
  ⟨t.cols, t.rows.map (List.map (fun c => if c = Cell.na then v else c))⟩

/-- `DataScrubber.handle_missing_data`: drop rows with missing values when
`drop`, otherwise fill with `fill_value` when one is given, otherwise leave
the table alone. -/
def handle_missing_data (t : Table) (drop : Bool) (fill_value : Option Cell) :
    ScrubResult :=
  if drop then
    let t2 := dropna t
    .ok t2 t2
  else
    match fill_value with
    | some v =>
      let t2 := fillna t v
      .ok t2 t2
    | none => .ok t t

/-- `DataScrubber.format_column_strings`: explicit column check raising
`ValueError`, then `astype(str).str.lower().str.strip()` (or upper); any
other `case` leaves the column untouched. -/
def format_column_strings (t : Table) (column casing : String) : ScrubResult :=
  match colIdx t.cols column with
  | none => .error (.valueError ("Column " ++ column ++ " not found.")) t
  | some j =>
    if casing = "lower" then
      let t2 := t.mapColumn j (fun c => .str (strip (strLower (cellToStr c))))
      .ok t2 t2
    else if casing = "upper" then
      let t2 := t.mapColumn j (fun c => .str (strip (strUpper (cellToStr c))))
      .ok t2 t2
    else .ok t t

/-- `DataScrubber.rename_columns`: check every old name (in mapping order)
before renaming; the rename itself rebinds `self.df` to a fresh object. -/
def rename_columns (t : Table) (mapping : List (String × String)) : ScrubResult :=
  match mapping.find? (fun p => !decide (p.1 ∈ t.cols)) with
  | some p => .error (.valueError ("Column " ++ p.1 ++ " not found.")) t
  | none =>
    let t2 : Table := ⟨t.cols.map (fun c =>
      match mapping.lookup c with
      | some n => n
      | none => c), t.rows⟩
    .ok t2 t2

/-- `DataScrubber.reorder_columns`: check every requested name before
selecting `self.df[order]`. -/
def reorder_columns (t : Table) (order : List String) : ScrubResult :=
  match order.find? (fun c => !decide (c ∈ t.cols)) with
  | some c => .error (.valueError ("Column " ++ c ++ " not found.")) t
  | none =>
    let t2 : Table := ⟨order, t.rows.map (fun r => order.map (fun c =>
      match colIdx t.cols c with
      | some j => r.getD j Cell.na
      | none => Cell.na))⟩
    .ok t2 t2

/-- The row predicate of `filter_outliers` after coercion: the cell in
column `j` is numeric and within the inclusive bounds. -/
def inBoundsAt (j : Nat) (min_val max_val : ℚ) (r : List Cell) : Bool :=
  match r.getD j Cell.na with
  | .num q => decide (min_val ≤ q ∧ q ≤ max_val)
  | _ => false

/-- `DataScrubber.filter_outliers`: column check, in-place
`pd.to_numeric(..., errors="coerce")` on the column, then keep rows within
the inclusive bounds (NaN comparisons are false, so coerced-missing rows are
dropped). -/
def filter_outliers (t : Table) (column : String) (min_val max_val : ℚ) :
    ScrubResult :=
  match colIdx t.cols column with
  | none => .error (.valueError ("Column " ++ column ++ " not found.")) t
  | some j =>
    let t1 := t.mapColumn j toNumericCoerce
    let t2 : Table := ⟨t1.cols, t1.rows.filter (inBoundsAt j min_val max_val)⟩
    .ok t2 t2

/-- Target dtypes accepted by `convert_column_type` in this code base. -/
inductive PyType where
  | int
  | float
  | str
deriving DecidableEq, Repr

/-- Truncation toward zero, as Python and numpy cast floats to ints. -/
def ratTrunc (q : ℚ) : Int := q.num.tdiv (q.den : Int)

/-- `astype(dtype)` on one cell; `none` models a raised conversion error
(e.g. `int` of a non-numeric string or of NaN). -/
def astypeCell : PyType → Cell → Option Cell
  | .str, c => some (.str (cellToStr c))
  | .int, .num q => some (.num ((ratTrunc q : Int) : ℚ))
  | .int, .str s => (parseIntLit (strip s)).map (fun n => .num (n : ℚ))
  | .int, _ => none
  | .float, .num q => some (.num q)
  | .float, .str s => (parseNumLit (strip s)).map .num
  | .float, .na => some .na
  | .float, .date _ _ _ => none

/-- Convert the cell at position `j` of a row, failing if conversion fails. -/
def mapAtM (j : Nat) (f : Cell → Option Cell) (r : List Cell) :
    Option (List Cell) :=
  if h : j < r.length then (f (r.get ⟨j, h⟩)).map (fun c => r.set j c)
  else some r

/-- `DataScrubber.convert_column_type`: column check, then `astype`; the
converted column is computed before the in-place assignment, so a conversion
error leaves the table unchanged. -/
def convert_column_type (t : Table) (column : String) (dtype : PyType) :
    ScrubResult :=
  match colIdx t.cols column with
  | none => .error (.valueError ("Column " ++ column ++ " not found.")) t
  | some j =>
    match t.rows.mapM (mapAtM j (astypeCell dtype)) with
    | some rs =>
      let t2 : Table := ⟨t.cols, rs⟩
      .ok t2 t2
    | none => .error (.valueError "astype failed") t

/-- `DataScrubber.parse_date_column`: column check, then assign
`pd.to_datetime(self.df[column], errors="coerce")` into `new_column`
(replacing it in place when it exists, appending it otherwise). -/
def parse_date_column (t : Table) (column new_column : String) : ScrubResult :=
  match colIdx t.cols column with
  | none => .error (.valueError ("Column " ++ column ++ " not found.")) t
  | some j =>
    let t2 : Table :=
      match colIdx t.cols new_column with
      | some k =>
        ⟨t.cols, t.rows.map (fun r => r.set k (toDatetimeCoerce (r.getD j Cell.na)))⟩
      | none =>
        ⟨t.cols ++ [new_column],
         t.rows.map (fun r => r ++ [toDatetimeCoerce (r.getD j Cell.na)])⟩
    .ok t2 t2

/-- `DataScrubber.remove_negative_values`: column check, then
`self.df[self.df[column] >= 0]`.  The elementwise `>= 0` comparison raises
`TypeError` on string or datetime entries; NaN compares false. -/
def remove_negative_values (t : Table) (column : String) : ScrubResult :=
  match colIdx t.cols column with
  | none => .error (.valueError ("Column " ++ column ++ " not found.")) t
  | some j =>
    if t.rows.any (fun r => match r.getD j Cell.na with
        | .str _ => true
        | .date _ _ _ => true
        | _ => false) then
      .error (.typeError "not supported between instances of str and int") t
    else
      let t2 : Table := ⟨t.cols, t.rows.filter (fun r =>
        match r.getD j Cell.na with
        | .num q => decide (0 ≤ q)
        | _ => false)⟩
      .ok t2 t2

/-- `DataScrubber.convert_empty_strings_to_na`: `replace("", pd.NA)` over
the whole table (rebinds `self.df`). -/
def convert_empty_strings_to_na (t : Table) : ScrubResult :=
  let t2 : Table := ⟨t.cols, t.rows.map (List.map (fun c =>
    if c = Cell.str "" then Cell.na else c))⟩
  .ok t2 t2

/-- `DataScrubber.override_invalid_dates`: no column check (reading
`self.df[column]` raises `KeyError` on an absent label); cells whose
`to_datetime` coercion is missing are overwritten in place with the fixed
date string. -/
def override_invalid_dates (t : Table) (column fixed_date : String) : ScrubResult :=
  match colIdx t.cols column with
  | none => .error (.keyError column) t
  | some j =>
    let t2 : Table := ⟨t.cols, t.rows.map (fun r =>
      if toDatetimeCoerce (r.getD j Cell.na) = Cell.na
      then r.set j (Cell.str fixed_date)
      else r)⟩
    .ok t2 t2

/-- `DataScrubber.correct_zero_sales_discount`: coerce `sale_amount` and
`discount_percent` to numeric in place (raising `KeyError` when absent),
then set `discount_percent` to 100 on rows with `sale_amount == 0` and a
missing or `< 100` discount. -/
def correct_zero_sales_discount (t : Table) : ScrubResult :=
  match colIdx t.cols "sale_amount" with
  | none => .error (.keyError "sale_amount") t
  | some ja =>
    let t1 := t.mapColumn ja toNumericCoerce
    match colIdx t1.cols "discount_percent" with
    | none => .error (.keyError "discount_percent") t1
    | some jd =>
      let t2 := t1.mapColumn jd toNumericCoerce
      let t3 : Table := ⟨t2.cols, t2.rows.map (fun r =>
        if (match r.getD ja Cell.na, r.getD jd Cell.na with
            | Cell.num a, Cell.na => decide (a = 0)
            | Cell.num a, Cell.num q => decide (a = 0) && decide (q < 100)
            | _, _ => false)
        then r.set jd (Cell.num 100)
        else r)⟩
      .ok t3 t3

/-- The menu of cleaning operations of `DataScrubber` (the IO helpers
`save` and `inspect` are not table transformations). -/
inductive Op where
  | standardize_column_names
  | standardize_categorical_column (column : String)
  | remove_duplicate_records (subset : Option (List String))
  | handle_missing_data (drop : Bool) (fill_value : Option Cell)
  | format_column_strings (column casing : String)
  | rename_columns (mapping : List (String × String))
  | reorder_columns (order : List String)
  | filter_outliers (column : String) (min_val max_val : ℚ)
  | convert_column_type (column : String) (dtype : PyType)
  | parse_date_column (column new_column : String)
  | remove_negative_values (column : String)
  | convert_empty_strings_to_na
  | override_invalid_dates (column fixed_date : String)
  | correct_zero_sales_discount
deriving DecidableEq, Repr

/-- Dispatch one scrubber method call on the stored table. -/
def applyM : Op → Table → ScrubResult
  | .standardize_column_names, t => standardize_column_names t
  | .standardize_categorical_column c, t => standardize_categorical_column t c
  | .remove_duplicate_records s, t => remove_duplicate_records t s
  | .handle_missing_data d f, t => handle_missing_data t d f
  | .format_column_strings c cs, t => format_column_strings t c cs
  | .rename_columns m, t => rename_columns t m
  | .reorder_columns o, t => reorder_columns t o
  | .filter_outliers c a b, t => filter_outliers t c a b
  | .convert_column_type c ty, t => convert_column_type t c ty
  | .parse_date_column c nc, t => parse_date_column t c nc
  | .remove_negative_values c, t => remove_negative_values t c
  | .convert_empty_strings_to_na, t => convert_empty_strings_to_na t
  | .override_invalid_dates c fd, t => override_invalid_dates t c fd
  | .correct_zero_sales_discount, t => correct_zero_sales_discount t

/-- Run a sequence of scrubber calls, stopping at the first exception (the
error case carries the stored table at the raise). -/
def runOps : List Op → Table → Except (PyErr × Table) Table
  | [], t => .ok t
  | op :: ops, t =>
    match applyM op t with
    | .ok t2 _ => runOps ops t2
    | .error e t2 => .error (e, t2)

/-- Which methods never rebind `self.df` on a successful call: they only
assign into columns (or the `columns` attribute) of the stored object, so
the object supplied to the constructor keeps holding the result.
`handle_missing_data` executes no assignment at all when it neither drops
nor fills.  All other methods execute `self.df = ...`, binding a fresh
DataFrame object. -/
def inPlaceOp : Op → Bool
  | .standardize_column_names => true
  | .standardize_categorical_column _ => true
  | .format_column_strings _ _ => true
  | .convert_column_type _ _ => true
  | .parse_date_column _ _ => true
  | .override_invalid_dates _ _ => true
  | .correct_zero_sales_discount => true
  | .handle_missing_data drop fv => !drop && fv.isNone
  | _ => false

/-- The scrubber state with object identities: the current table value, the
identity (`ref`) of the object bound to `self.df`, and a supply of fresh
identities.  The constructor stores the caller's object, so a run starts at
the caller's `ref`. -/
structure RefState where
  df : Table
  ref : Nat
  fresh : Nat
deriving DecidableEq, Repr

/-- One method call with object identities: exceptions are raised before
any `self.df = ...` rebinding in every method, so an error keeps the
current identity; a successful non-in-place call binds a fresh object. -/
def applyRef (op : Op) (s : RefState) : Except (PyErr × RefState) RefState :=
  match applyM op s.df with
  | .ok t2 _ =>
    if inPlaceOp op then .ok ⟨t2, s.ref, s.fresh⟩
    else .ok ⟨t2, s.fresh, s.fresh + 1⟩
  | .error e t2 => .error (e, ⟨t2, s.ref, s.fresh⟩)

/-- Run a chain of calls with object identities. -/
def runRef : List Op → RefState → Except (PyErr × RefState) RefState
  | [], s => .ok s
  | op :: ops, s =>
    match applyRef op s with
    | .ok s2 => runRef ops s2
    | .error e => .error e

/-- The final `ref` of a successful run. -/
def finalRef : Except (PyErr × RefState) RefState → Option Nat
  | .ok s => some s.ref
  | .error _ => none

/-- The sale-table schema columns of `etl_to_dw.load_data_to_db`. -/
def saleColumns : List String :=
  ["sale_id", "customer_id", "product_id", "store_id", "campaign_id",
   "sale_amount", "sale_date", "discount_percent"]

/-- The product-table schema columns. -/
def productColumns : List String :=
  ["product_id", "product_name", "category", "unit_price"]

/-- The customer-table schema columns. -/
def customerColumns : List String :=
  ["customer_id", "region", "join_date", "loyalty_points", "engagement_style"]

/-- `df.rename(columns=mapping)`: pandas renames without any existence
check. -/
def renameNoCheck (mapping : List (String × String)) (t : Table) : Table :=
  ⟨t.cols.map (fun c =>
    match mapping.lookup c with
    | some n => n
    | none => c), t.rows⟩

/-- `df[cs]`: select (and duplicate, if repeated) the named columns. -/
def selectCols (cs : List String) (t : Table) : Table :=
  ⟨cs, t.rows.map (fun r => cs.map (fun c =>
    match colIdx t.cols c with
    | some j => r.getD j Cell.na
    | none => Cell.na))⟩

/-- Month lengths of 2025 (not a leap year). -/
def monthLengths : List Nat := [31, 28, 31, 30, 31, 30, 31, 31, 30, 31, 30, 31]

/-- Convert a 0-based day offset into a (month, day) pair. -/
def dayToMD : List Nat → Nat → Nat → Nat × Nat
  | [], m, n => (m, n + 1)
  | len :: rest, m, n =>
    if n < len then (m, n + 1) else dayToMD rest (m + 1) (n - len)

/-- `(pd.to_datetime("2025-01-01") + pd.to_timedelta(n, unit="D")).strftime("%Y-%m-%d")`. -/
def dateString2025 (n : Nat) : String :=
  let md := dayToMD monthLengths 1 n
  "2025-" ++ pad2 md.1 ++ "-" ++ pad2 md.2

/-- Map over a list with the element index, starting at a given index. -/
def mapWithIdx (f : Nat → List Cell → List Cell) : Nat → List (List Cell) → List (List Cell)
  | _, [] => []
  | i, r :: rs => f i r :: mapWithIdx f (i + 1) rs

/-- `df[c] = series`: overwrite column `c` in place when it exists,
append it otherwise; `vals i` is the series entry for row `i`. -/
def setColumnSeries (c : String) (vals : Nat → Cell) (t : Table) : Table :=
  match colIdx t.cols c with
  | some j => ⟨t.cols, mapWithIdx (fun i r => r.set j (vals i)) 0 t.rows⟩
  | none => ⟨t.cols ++ [c], mapWithIdx (fun i r => r ++ [vals i]) 0 t.rows⟩

/-- The sales frame after `rename(columns={"transaction_id": "sale_id"})`. -/
def salesRenamed (csv : Table) : Table :=
  renameNoCheck [("transaction_id", "sale_id")] csv

/-- ... after `drop_duplicates(subset="sale_id", keep="first")`. -/
def salesDeduped (csv : Table) : Table :=
  ⟨(salesRenamed csv).cols,
   dedupBy (rowKey (salesRenamed csv) ["sale_id"]) (salesRenamed csv).rows⟩

/-- The full sale-row transformation of `load_data_to_db`: rename, dedupe on
`sale_id`, overwrite `sale_date` with 2025-01-01 plus a random number of
days (`np.random.randint(0, 365)` modelled by an arbitrary `offsets`
sequence taken mod 365), and select the schema columns. -/
def load_transform_sales (csv : Table) (offsets : Nat → Nat) : Table :=
  selectCols saleColumns
    (setColumnSeries "sale_date"
      (fun i => Cell.str (dateString2025 (offsets i % 365)))
      (salesDeduped csv))

/-- The product rows inserted by `load_data_to_db`. -/
def load_transform_products (csv : Table) : Table := selectCols productColumns csv

/-- The customer rows inserted by `load_data_to_db`. -/
def load_transform_customers (csv : Table) : Table := selectCols customerColumns csv

/-- The cleaning operations that do not rewrite or rearrange the list of
column names. -/
def nonRenamingOp : Op → Bool
  | .standardize_column_names => false
  | .rename_columns _ => false
  | .reorder_columns _ => false
  | _ => true

/-- The row key used by `remove_duplicate_records`: whole rows when the
subset is absent or empty (falsy), the subset restriction otherwise. -/
def dedupKeyFn (t : Table) (subset : Option (List String)) :
    List Cell → List Cell :=
  match subset with
  | some s => if s.isEmpty then id else rowKey t s
  | none => id

/-- The per-cell action of `format_column_strings` for a given casing
argument (the identity for any casing other than lower/upper). -/
def fmtCell (casing : String) (x : Cell) : Cell :=
  if casing = "lower" then .str (strip (strLower (cellToStr x)))
  else if casing = "upper" then .str (strip (strUpper (cellToStr x)))
  else x

section ListLemmas

variable {α β : Type*}

theorem getD_set_ne (a d : α) :
    ∀ (l : List α) (i j : Nat), i ≠ j →
      (l.set i a).getD j d = l.getD j d := by
  intro l
  induction l with
  | nil => intro i j _; simp
  | cons x xs ih =>
    intro i j h
    cases i with
    | zero =>
      cases j with
      | zero => exact absurd rfl h
      | succ j => simp [List.getD]
    | succ i =>
      cases j with
      | zero => simp [List.getD]
      | succ j => simpa [List.getD] using ih i j (fun he => h (by omega))

theorem getD_set_self (a d : α) :
    ∀ (l : List α) (j : Nat), j < l.length →
      (l.set j a).getD j d = a := by
  intro l
  induction l with
  | nil => intro j h; simp at h
  | cons x xs ih =>
    intro j h
    cases j with
    | zero => simp [List.getD]
    | succ j => simpa [List.getD] using ih j (by simpa using h)

theorem set_getD_self (d : α) :
    ∀ (l : List α) (j : Nat), l.set j (l.getD j d) = l := by
  intro l
  induction l with
  | nil => intro j; simp
  | cons x xs ih =>
    intro j
    cases j with
    | zero => simp [List.getD]
    | succ j => simpa [List.getD] using ih j

theorem set_commute (a b : α) :
    ∀ (l : List α) (i j : Nat), i ≠ j →
      (l.set i a).set j b = (l.set j b).set i a := by
  intro l
  induction l with
  | nil => intro i j _; simp
  | cons x xs ih =>
    intro i j h
    cases i with
    | zero =>
      cases j with
      | zero => exact absurd rfl h
      | succ j => simp
    | succ i =>
      cases j with
      | zero => simp
      | succ j => simpa using ih i j (fun he => h (by omega))

theorem getD_map_lt (f : α → β) (d : β) (d' : α) :
    ∀ (l : List α) (k : Nat), k < l.length →
      (l.map f).getD k d = f (l.getD k d') := by
  intro l
  induction l with
  | nil => intro k h; simp at h
  | cons x xs ih =>
    intro k h
    cases k with
    | zero => simp [List.getD]
    | succ k => simpa [List.getD] using ih k (by simpa using h)

theorem getD_of_length_le (d : α) :
    ∀ (l : List α) (k : Nat), l.length ≤ k → l.getD k d = d := by
  intro l
  induction l with
  | nil => intro k _; simp [List.getD]
  | cons x xs ih =>
    intro k h
    cases k with
    | zero => simp at h
    | succ k => simpa [List.getD] using ih k (by simpa using h)

end ListLemmas

theorem colIdx_eq_none_iff (cols : List String) (c : String) :
    colIdx cols c = none ↔ c ∉ cols := by
  induction cols with
  | nil => simp [colIdx]
  | cons c0 rest ih =>
    by_cases h : c0 = c
    · simp [colIdx, h]
    · simp [colIdx, h, Option.map_eq_none', ih, Ne.symm h]

theorem colIdx_isSome_of_mem {cols : List String} {c : String} (h : c ∈ cols) :
    ∃ j, colIdx cols c = some j := by
  cases hj : colIdx cols c with
  | none => exact absurd ((colIdx_eq_none_iff cols c).mp hj) (by simp [h])
  | some j => exact ⟨j, rfl⟩

theorem colIdx_lt_length :
    ∀ (cols : List String) (c : String) (j : Nat),
      colIdx cols c = some j → j < cols.length := by
  intro cols
  induction cols with
  | nil => intro c j h; simp [colIdx] at h
  | cons c0 rest ih =>
    intro c j h
    by_cases h0 : c0 = c
    · simp [colIdx, h0] at h
      simp only [List.length_cons]
      omega
    · simp only [colIdx, if_neg h0, Option.map_eq_some'] at h
      obtain ⟨j', hj', rfl⟩ := h
      have := ih c j' hj'
      simp only [List.length_cons]
      omega

theorem colIdx_getD :
    ∀ (cols : List String) (c : String) (j : Nat),
      colIdx cols c = some j → cols.getD j "" = c := by
  intro cols
  induction cols with
  | nil => intro c j h; simp [colIdx] at h
  | cons c0 rest ih =>
    intro c j h
    by_cases h0 : c0 = c
    · simp [colIdx, h0] at h
      subst h
      simpa [List.getD] using h0
    · simp only [colIdx, if_neg h0, Option.map_eq_some'] at h
      obtain ⟨j', hj', rfl⟩ := h
      simpa [List.getD] using ih c j' hj'

theorem colIdx_ne_of_ne {cols : List String} {c1 c2 : String} {j1 j2 : Nat}
    (h1 : colIdx cols c1 = some j1) (h2 : colIdx cols c2 = some j2)
    (hne : c1 ≠ c2) : j1 ≠ j2 := by
  intro he
  subst he
  exact hne ((colIdx_getD _ _ _ h1).symm.trans (colIdx_getD _ _ _ h2))

theorem mapAt_getD_self {r : List Cell} {j : Nat} (h : j < r.length)
    (f : Cell → Cell) : (mapAt j f r).getD j Cell.na = f (r.getD j Cell.na) :=
  getD_set_self _ _ r j h

theorem mapAt_getD_ne {r : List Cell} {j k : Nat} (h : j ≠ k)
    (f : Cell → Cell) (d : Cell) : (mapAt j f r).getD k d = r.getD k d :=
  getD_set_ne _ d r j k h

theorem mapAt_id (j : Nat) (r : List Cell) : mapAt j (fun c => c) r = r :=
  set_getD_self Cell.na r j

theorem mapAt_commute {j1 j2 : Nat} (h : j1 ≠ j2) (f g : Cell → Cell)
    (r : List Cell) : mapAt j1 f (mapAt j2 g r) = mapAt j2 g (mapAt j1 f r) := by
  unfold mapAt
  rw [getD_set_ne _ _ _ _ _ (Ne.symm h), getD_set_ne _ _ _ _ _ h,
    set_commute _ _ _ _ _ (Ne.symm h)]

theorem dedupBySeen_sublist (key : List Cell → List Cell) :
    ∀ (l seen : List (List Cell)),
      List.Sublist (dedupBySeen key seen l) l := by
  intro l
  induction l with
  | nil => intro seen; simp [dedupBySeen]
  | cons r rs ih =>
    intro seen
    simp only [dedupBySeen]
    split
    · exact (ih seen).cons r
    · exact (ih (key r :: seen)).cons₂ r

theorem dedupBySeen_key_not_seen (key : List Cell → List Cell) :
    ∀ (l seen : List (List Cell)) (r' : List Cell),
      r' ∈ dedupBySeen key seen l → key r' ∉ seen := by
  intro l
  induction l with
  | nil => intro seen r' h; simp [dedupBySeen] at h
  | cons r rs ih =>
    intro seen r' h
    simp only [dedupBySeen] at h
    split at h
    · exact ih seen r' h
    · rcases List.mem_cons.mp h with rfl | h2
      · assumption
      · have := ih (key r :: seen) r' h2
        exact fun hmem => this (List.mem_cons_of_mem _ hmem)

theorem dedupBySeen_nodup_keys (key : List Cell → List Cell) :
    ∀ (l seen : List (List Cell)),
      ((dedupBySeen key seen l).map key).Nodup := by
  intro l
  induction l with
  | nil => intro seen; simp [dedupBySeen]
  | cons r rs ih =>
    intro seen
    simp only [dedupBySeen]
    split
    · exact ih seen
    · refine List.Nodup.cons ?_ (ih (key r :: seen))
      intro hmem
      obtain ⟨r', hr', hk⟩ := List.mem_map.mp hmem
      exact dedupBySeen_key_not_seen key rs (key r :: seen) r' hr'
        (hk ▸ List.mem_cons_self _ _)

theorem dedupBySeen_first (key : List Cell → List Cell) :
    ∀ (l seen : List (List Cell)) (r' : List Cell),
      r' ∈ dedupBySeen key seen l →
      l.find? (fun x => decide (key x = key r')) = some r' := by
  intro l
  induction l with
  | nil => intro seen r' h; simp [dedupBySeen] at h
  | cons r rs ih =>
    intro seen r' h
    simp only [dedupBySeen] at h
    split at h
    · rename_i hseen
      have hnot := dedupBySeen_key_not_seen key rs seen r' h
      have hne : ¬ (key r = key r') := fun he => hnot (he ▸ hseen)
      rw [List.find?_cons_of_neg _ (by simpa using hne)]
      exact ih seen r' h
    · rcases List.mem_cons.mp h with rfl | h2
      · exact List.find?_cons_of_pos _ (by simp)
      · have hnot := dedupBySeen_key_not_seen key rs (key r :: seen) r' h2
        have hne : ¬ (key r = key r') := fun he =>
          hnot (he ▸ List.mem_cons_self _ _)
        rw [List.find?_cons_of_neg _ (by simpa using hne)]
        exact ih (key r :: seen) r' h2

theorem dedupBySeen_complete (key : List Cell → List Cell) :
    ∀ (l seen : List (List Cell)) (r : List Cell),
      r ∈ l → key r ∉ seen →
      ∃ r' ∈ dedupBySeen key seen l, key r' = key r := by
  intro l
  induction l with
  | nil => intro seen r h; simp at h
  | cons r0 rs ih =>
    intro seen r hmem hns
    simp only [dedupBySeen]
    split
    · rename_i hseen
      rcases List.mem_cons.mp hmem with rfl | h2
      · exact absurd hseen hns
      · exact ih seen r h2 hns
    · rcases List.mem_cons.mp hmem with rfl | h2
      · exact ⟨r, List.mem_cons_self _ _, rfl⟩
      · by_cases hk : key r = key r0
        · exact ⟨r0, List.mem_cons_self _ _, hk.symm⟩
        · obtain ⟨r', hr', hkr⟩ := ih (key r0 :: seen) r h2
            (by simp [hk, hns])
          exact ⟨r', List.mem_cons_of_mem _ hr', hkr⟩

theorem dedupBy_sublist (key : List Cell → List Cell) (l : List (List Cell)) :
    List.Sublist (dedupBy key l) l :=
  dedupBySeen_sublist key l []

theorem dedupBy_nodup_keys (key : List Cell → List Cell) (l : List (List Cell)) :
    ((dedupBy key l).map key).Nodup :=
  dedupBySeen_nodup_keys key l []

theorem dedupBy_first (key : List Cell → List Cell) (l : List (List Cell))
    (r' : List Cell) (h : r' ∈ dedupBy key l) :
    l.find? (fun x => decide (key x = key r')) = some r' :=
  dedupBySeen_first key l [] r' h

theorem dedupBy_complete (key : List Cell → List Cell) (l : List (List Cell))
    (r : List Cell) (h : r ∈ l) :
    ∃ r' ∈ dedupBy key l, key r' = key r :=
  dedupBySeen_complete key l [] r h (by simp)

/-- Claim C1 (amended): with a column name `c` absent from the table, each
column-addressed cleaning operation raises and leaves the stored table
unchanged; the seven operations with an explicit check
(format_column_strings, rename_columns, reorder_columns, filter_outliers,
convert_column_type, parse_date_column, remove_negative_values) raise
ValueError, while standardize_categorical_column and override_invalid_dates,
which have no check, raise KeyError from the `self.df[column]` access. -/
theorem missing_column_error_behaviour (t : Table) (c : String)
    (hc : c ∉ t.cols) :
    (∀ cs, format_column_strings t c cs =
      .error (.valueError ("Column " ++ c ++ " not found.")) t) ∧
    (∀ x, rename_columns t [(c, x)] =
      .error (.valueError ("Column " ++ c ++ " not found.")) t) ∧
    (reorder_columns t [c] =
      .error (.valueError ("Column " ++ c ++ " not found.")) t) ∧
    (∀ mn mx, filter_outliers t c mn mx =
      .error (.valueError ("Column " ++ c ++ " not found.")) t) ∧
    (∀ ty, convert_column_type t c ty =
      .error (.valueError ("Column " ++ c ++ " not found.")) t) ∧
    (∀ nc, parse_date_column t c nc =
      .error (.valueError ("Column " ++ c ++ " not found.")) t) ∧
    (remove_negative_values t c =
      .error (.valueError ("Column " ++ c ++ " not found.")) t) ∧
    (standardize_categorical_column t c = .error (.keyError c) t) ∧
    (∀ fd, override_invalid_dates t c fd = .error (.keyError c) t) := by
  have hnone : colIdx t.cols c = none := (colIdx_eq_none_iff _ _).mpr hc
  refine ⟨?_, ?_, ?_, ?_, ?_, ?_, ?_, ?_, ?_⟩
  · intro cs; simp [format_column_strings, hnone]
  · intro x; simp [rename_columns, List.find?_cons, hc]
  · simp [reorder_columns, List.find?_cons, hc]
  · intro mn mx; simp [filter_outliers, hnone]
  · intro ty; simp [convert_column_type, hnone]
  · intro nc; simp [parse_date_column, hnone]
  · simp [remove_negative_values, hnone]
  · simp [standardize_categorical_column, hnone]
  · intro fd; simp [override_invalid_dates, hnone]

/-- Witness for C1 at a concrete table and column. -/
theorem missing_column_error_behaviour_witness :
    ("b" ∈ (Table.mk ["a"] [[Cell.na]]).cols) = False ∧
    format_column_strings ⟨["a"], [[Cell.na]]⟩ "b" "lower" =
      .error (.valueError ("Column " ++ "b" ++ " not found.")) ⟨["a"], [[Cell.na]]⟩ :=
  ⟨by simp, (missing_column_error_behaviour ⟨["a"], [[Cell.na]]⟩ "b" (by decide)).1 "lower"⟩

/-- Counterexample to C1 as stated: `standardize_categorical_column` on an
absent column raises `KeyError`, not `ValueError`. -/
theorem standardize_categorical_keyerror_cex :
    standardize_categorical_column ⟨["a"], [[Cell.str "x"]]⟩ "b" =
      .error (.keyError "b") ⟨["a"], [[Cell.str "x"]]⟩ ∧
    (PyErr.keyError "b").isValueError = false ∧
    decide ("b" ∈ (Table.mk ["a"] [[Cell.str "x"]]).cols) = false :=
  ⟨rfl, rfl, rfl⟩

/-- Claim C8: every cleaning operation, on every input where it succeeds,
returns exactly the table stored in `self.df` after the update, so calls
chain with each call observing all earlier effects. -/
theorem methods_return_stored_df :
    ∀ (op : Op) (t df ret : Table), applyM op t = .ok df ret → ret = df := by
  intro op t df ret h
  cases op <;>
    simp only [applyM, standardize_column_names, standardize_categorical_column,
      remove_duplicate_records, handle_missing_data, format_column_strings,
      rename_columns, reorder_columns, filter_outliers, convert_column_type,
      parse_date_column, remove_negative_values, convert_empty_strings_to_na,
      override_invalid_dates, correct_zero_sales_discount] at h <;>
    (repeat' split at h) <;>
    (try simp only [ScrubResult.ok.injEq] at h) <;>
    first
      | (obtain ⟨h1, h2⟩ := h; exact h2.symm.trans h1)
      | simp_all

/-- Witness for C8 at a concrete operation and table. -/
theorem methods_return_stored_df_witness :
    applyM .convert_empty_strings_to_na ⟨["a"], [[Cell.str ""]]⟩ =
      .ok ⟨["a"], [[Cell.na]]⟩ ⟨["a"], [[Cell.na]]⟩ ∧
    (⟨["a"], [[Cell.na]]⟩ : Table) = ⟨["a"], [[Cell.na]]⟩ :=
  ⟨rfl, methods_return_stored_df .convert_empty_strings_to_na
    ⟨["a"], [[Cell.str ""]]⟩ ⟨["a"], [[Cell.na]]⟩ ⟨["a"], [[Cell.na]]⟩ rfl⟩

/-- Claim C9: when rename_columns or reorder_columns raises ValueError for
an absent requested name, the stored table is unchanged, because all name
checks precede any mutation. -/
theorem rename_reorder_error_atomic :
    (∀ (t : Table) (m : List (String × String)) (e : PyErr) (tErr : Table),
        applyM (.rename_columns m) t = .error e tErr → tErr = t) ∧
    (∀ (t : Table) (o : List String) (e : PyErr) (tErr : Table),
        applyM (.reorder_columns o) t = .error e tErr → tErr = t) := by
  constructor <;>
    (intro t x e tErr h
     simp only [applyM, rename_columns, reorder_columns] at h
     split at h <;> simp_all)

/-- Witness for C9: a rename whose mapping mixes a present and an absent
name raises and leaves the table untouched. -/
theorem rename_reorder_error_atomic_witness :
    applyM (.rename_columns [("a", "x"), ("zz", "y")]) ⟨["a"], [[Cell.na]]⟩ =
      .error (.valueError ("Column " ++ "zz" ++ " not found.")) ⟨["a"], [[Cell.na]]⟩ ∧
    (⟨["a"], [[Cell.na]]⟩ : Table) = ⟨["a"], [[Cell.na]]⟩ :=
  ⟨rfl, rename_reorder_error_atomic.1 ⟨["a"], [[Cell.na]]⟩ [("a", "x"), ("zz", "y")]
    (.valueError ("Column " ++ "zz" ++ " not found.")) ⟨["a"], [[Cell.na]]⟩ rfl⟩

/-- A successful in-place call keeps the identity of the stored object. -/
theorem applyRef_inplace_ref (op : Op) (s s2 : RefState)
    (hip : inPlaceOp op = true) (h : applyRef op s = .ok s2) :
    s2.ref = s.ref := by
  unfold applyRef at h
  cases hm : applyM op s.df with
  | ok t2 r =>
    rw [hm, hip] at h
    simp only [if_true, Except.ok.injEq] at h
    rw [← h]
  | error e t2 => rw [hm] at h; exact absurd h (by simp)

/-- Claim C4 (amended): a chain consisting only of in-place operations keeps
`self.df` bound to the object supplied to the constructor (the non-in-place
operations rebind `self.df` to a fresh object, see the counterexample). -/
theorem inplace_chain_preserves_ref :
    ∀ (ops : List Op) (s s' : RefState),
      (∀ op ∈ ops, inPlaceOp op = true) →
      runRef ops s = .ok s' → s'.ref = s.ref := by
  intro ops
  induction ops with
  | nil =>
    intro s s' _ h
    simp only [runRef, Except.ok.injEq] at h
    rw [← h]
  | cons op ops ih =>
    intro s s' hall h
    simp only [runRef] at h
    cases happ : applyRef op s with
    | ok s2 =>
      rw [happ] at h
      have h2 := applyRef_inplace_ref op s s2 (hall op (List.mem_cons_self _ _)) happ
      rw [ih s2 s' (fun o ho => hall o (List.mem_cons_of_mem _ ho)) h, h2]
    | error e => rw [happ] at h; exact absurd h (by simp)

/-- Witness for C4 at a concrete in-place chain. -/
theorem inplace_chain_preserves_ref_witness :
    runRef [Op.handle_missing_data false none] ⟨⟨["a"], [[Cell.na]]⟩, 5, 9⟩ =
      .ok ⟨⟨["a"], [[Cell.na]]⟩, 5, 9⟩ ∧
    (⟨⟨["a"], [[Cell.na]]⟩, 5, 9⟩ : RefState).ref =
      (⟨⟨["a"], [[Cell.na]]⟩, 5, 9⟩ : RefState).ref :=
  ⟨rfl, inplace_chain_preserves_ref [Op.handle_missing_data false none]
    ⟨⟨["a"], [[Cell.na]]⟩, 5, 9⟩ ⟨⟨["a"], [[Cell.na]]⟩, 5, 9⟩
    (by intro op hop; simp at hop; rw [hop]; rfl) rfl⟩

/-- Counterexample to C4 as stated: `remove_duplicate_records` executes
`self.df = self.df.drop_duplicates()`, rebinding `self.df` to a fresh
object (identity 1), no longer the constructor argument (identity 0). -/
theorem dedup_rebinds_ref_cex :
    finalRef (runRef [Op.remove_duplicate_records none]
      ⟨⟨["a"], [[Cell.str "x"]]⟩, 0, 1⟩) = some 1 ∧
    decide ((1 : Nat) = 0) = false :=
  ⟨rfl, rfl⟩

/-- Claim C5 (amended): every cleaning operation that does not rewrite or
rearrange the column names preserves pairwise-distinct column names;
standardize_column_names (and likewise rename_columns / reorder_columns)
can merge distinct names, see the counterexample. -/
theorem nonrenaming_ops_keep_nodup :
    ∀ (op : Op) (t df ret : Table), nonRenamingOp op = true →
      t.cols.Nodup → applyM op t = .ok df ret → df.cols.Nodup := by
  intro op t df ret hop hnd h
  cases op <;> simp only [nonRenamingOp] at hop
  all_goals
    simp only [applyM, standardize_categorical_column, remove_duplicate_records,
      handle_missing_data, format_column_strings, filter_outliers,
      convert_column_type, parse_date_column, remove_negative_values,
      convert_empty_strings_to_na, override_invalid_dates,
      correct_zero_sales_discount, Table.mapColumn] at h
  all_goals
    (repeat' split at h) <;>
    (try simp only [ScrubResult.ok.injEq] at h) <;>
    first
      | (obtain ⟨h1, _⟩ := h
         rw [← h1]
         first
           | exact hnd
           | (rename_i hnew _
              simp only [List.nodup_append, List.nodup_cons, List.nodup_nil,
                List.disjoint_singleton]
              exact ⟨hnd, by simp, (colIdx_eq_none_iff _ _).mp hnew⟩))
      | simp_all

/-- Witness for C5 at a concrete non-renaming operation. -/
theorem nonrenaming_ops_keep_nodup_witness :
    nonRenamingOp .convert_empty_strings_to_na = true ∧
    (["a", "b"] : List String).Nodup ∧
    applyM .convert_empty_strings_to_na ⟨["a", "b"], []⟩ =
      .ok ⟨["a", "b"], []⟩ ⟨["a", "b"], []⟩ ∧
    (Table.mk ["a", "b"] []).cols.Nodup :=
  ⟨rfl, by decide, rfl,
    nonrenaming_ops_keep_nodup .convert_empty_strings_to_na ⟨["a", "b"], []⟩
      ⟨["a", "b"], []⟩ ⟨["a", "b"], []⟩ rfl (by decide) rfl⟩

/-- Counterexample to C5 as stated: the distinct column names `MyCol` and
`my_col` are both sent to `my_col` by standardize_column_names, so
uniqueness of column names is not preserved. -/
theorem standardize_names_collision_cex :
    standardize_column_names ⟨["MyCol", "my_col"], []⟩ =
      .ok ⟨["my_col", "my_col"], []⟩ ⟨["my_col", "my_col"], []⟩ ∧
    decide ((["MyCol", "my_col"] : List String).Nodup) = true ∧
    decide ((["my_col", "my_col"] : List String).Nodup) = false :=
  ⟨rfl, rfl, rfl⟩

/-- Claim C6: remove_duplicate_records keeps a subsequence of the input in
which the row keys are pairwise distinct, every input key is still
represented, and each kept row is the first input row with its key; with a
non-empty subset the key is the restriction to the subset columns,
otherwise the whole row. -/
theorem remove_duplicates_spec :
    ∀ (t : Table) (s : Option (List String)) (df ret : Table),
      applyM (.remove_duplicate_records s) t = .ok df ret →
      df.cols = t.cols ∧
      List.Sublist df.rows t.rows ∧
      (df.rows.map (dedupKeyFn t s)).Nodup ∧
      (∀ r ∈ t.rows, ∃ r' ∈ df.rows, dedupKeyFn t s r' = dedupKeyFn t s r) ∧
      (∀ r' ∈ df.rows,
        t.rows.find? (fun x => decide (dedupKeyFn t s x = dedupKeyFn t s r')) =
          some r') := by
  intro t s df ret h
  have main : ∀ key : List Cell → List Cell,
      df = ⟨t.cols, dedupBy key t.rows⟩ →
      df.cols = t.cols ∧
      List.Sublist df.rows t.rows ∧
      (df.rows.map key).Nodup ∧
      (∀ r ∈ t.rows, ∃ r' ∈ df.rows, key r' = key r) ∧
      (∀ r' ∈ df.rows,
        t.rows.find? (fun x => decide (key x = key r')) = some r') := by
    intro key hdf
    subst hdf
    exact ⟨rfl, dedupBy_sublist key t.rows,
      dedupBy_nodup_keys key t.rows,
      fun r hr => dedupBy_complete key t.rows r hr,
      fun r' hr' => dedupBy_first key t.rows r' hr'⟩
  cases s with
  | none =>
    simp only [applyM, remove_duplicate_records, ScrubResult.ok.injEq] at h
    exact main id h.1.symm
  | some s =>
    simp only [applyM, remove_duplicate_records] at h
    by_cases hEmpty : s.isEmpty
    · rw [if_pos hEmpty] at h
      simp only [ScrubResult.ok.injEq] at h
      have := main id h.1.symm
      simpa [dedupKeyFn, hEmpty] using this
    · rw [if_neg hEmpty] at h
      split at h
      · simp only [ScrubResult.ok.injEq] at h
        have := main (rowKey t s) h.1.symm
        simpa [dedupKeyFn, hEmpty] using this
      · exact absurd h (by simp)

/-- Witness for C6 at a concrete table with a duplicated row. -/
theorem remove_duplicates_spec_witness :
    applyM (.remove_duplicate_records none)
        ⟨["a"], [[Cell.num 1], [Cell.num 1], [Cell.num 2]]⟩ =
      .ok ⟨["a"], [[Cell.num 1], [Cell.num 2]]⟩
        ⟨["a"], [[Cell.num 1], [Cell.num 2]]⟩ ∧
    List.Sublist (Table.mk ["a"] [[Cell.num 1], [Cell.num 2]]).rows
      (Table.mk ["a"] [[Cell.num 1], [Cell.num 1], [Cell.num 2]]).rows :=
  ⟨rfl, (remove_duplicates_spec
    ⟨["a"], [[Cell.num 1], [Cell.num 1], [Cell.num 2]]⟩ none
    ⟨["a"], [[Cell.num 1], [Cell.num 2]]⟩
    ⟨["a"], [[Cell.num 1], [Cell.num 2]]⟩ rfl).2.1⟩

/-- Claim C7: with `drop` set, handle_missing_data returns exactly the
input rows that contain no missing value, in their original order and
multiplicity (the result is literally the missing-free filter of the input,
hence also a subsequence whose members are the missing-free input rows),
regardless of any fill value;
fills every missing entry, and only those, when a fill value is given
without `drop`; and leaves the table unchanged when neither is given. -/
theorem handle_missing_data_spec :
    (∀ (t : Table) (fv : Option Cell) (df ret : Table),
        applyM (.handle_missing_data true fv) t = .ok df ret →
        df.cols = t.cols ∧
        df.rows = t.rows.filter
          (fun r => !(r.any (fun c => decide (c = Cell.na)))) ∧
        List.Sublist df.rows t.rows ∧
        (∀ r, r ∈ df.rows ↔ r ∈ t.rows ∧ Cell.na ∉ r) ∧
        applyM (.handle_missing_data true fv) t =
          applyM (.handle_missing_data true none) t) ∧
    (∀ (t : Table) (v : Cell) (df ret : Table),
        applyM (.handle_missing_data false (some v)) t = .ok df ret →
        df.cols = t.cols ∧
        df.rows.length = t.rows.length ∧
        (∀ i, (df.rows.getD i []).length = (t.rows.getD i []).length) ∧
        (∀ i j, i < t.rows.length → j < (t.rows.getD i []).length →
          (df.rows.getD i []).getD j Cell.na =
            (if (t.rows.getD i []).getD j Cell.na = Cell.na then v
             else (t.rows.getD i []).getD j Cell.na))) ∧
    (∀ t : Table, applyM (.handle_missing_data false none) t = .ok t t) := by
  refine ⟨?_, ?_, fun t => rfl⟩
  · intro t fv df ret h
    simp only [applyM, handle_missing_data, if_true, dropna,
      ScrubResult.ok.injEq] at h
    obtain ⟨h1, _⟩ := h
    subst h1
    refine ⟨rfl, rfl, List.filter_sublist _, ?_, rfl⟩
    intro r
    simp only [List.mem_filter, List.any_eq_true, Bool.not_eq_true',
      List.any_eq_false, decide_eq_false_iff_not, and_congr_right_iff]
    intro _
    constructor
    · intro hall hna
      exact hall _ hna rfl
    · intro hnot x hx hxna
      exact hnot ((of_decide_eq_true hxna) ▸ hx)
  · intro t v df ret h
    simp only [applyM, handle_missing_data] at h
    rw [if_neg (by simp)] at h
    simp only [fillna, ScrubResult.ok.injEq] at h
    obtain ⟨h1, _⟩ := h
    subst h1
    refine ⟨rfl, List.length_map _ _, ?_, ?_⟩
    · intro i
      by_cases hi : i < t.rows.length
      · rw [getD_map_lt _ [] [] t.rows i hi, List.length_map]
      · rw [getD_of_length_le _ _ _ (by simpa using Nat.le_of_not_lt hi),
          getD_of_length_le _ _ _ (Nat.le_of_not_lt hi)]
    · intro i j hi hj
      rw [getD_map_lt _ [] [] t.rows i hi,
        getD_map_lt _ Cell.na Cell.na (t.rows.getD i []) j hj]

/-- Witness for C7 at a concrete table with a missing entry. -/
theorem handle_missing_data_spec_witness :
    applyM (.handle_missing_data false (some (Cell.num 7))) ⟨["a"], [[Cell.na]]⟩ =
      .ok ⟨["a"], [[Cell.num 7]]⟩ ⟨["a"], [[Cell.num 7]]⟩ ∧
    (Table.mk ["a"] [[Cell.num 7]]).cols = (Table.mk ["a"] [[Cell.na]]).cols :=
  ⟨rfl, (handle_missing_data_spec.2.1 ⟨["a"], [[Cell.na]]⟩ (Cell.num 7)
    ⟨["a"], [[Cell.num 7]]⟩ ⟨["a"], [[Cell.num 7]]⟩ rfl).1⟩

/-- Claim C10: filter_outliers coerces the named column to numeric in place
and keeps exactly the rows whose coerced value lies within the inclusive
bounds; rows whose coerced entry is missing (non-numeric) are removed, and
the surviving rows are unchanged outside the filtered column. -/
theorem filter_outliers_spec :
    ∀ (t : Table) (c : String) (mn mx : ℚ) (j : Nat) (df ret : Table),
      colIdx t.cols c = some j →
      applyM (.filter_outliers c mn mx) t = .ok df ret →
      df.cols = t.cols ∧
      df.rows = (t.rows.map (mapAt j toNumericCoerce)).filter
        (inBoundsAt j mn mx) ∧
      (∀ r ∈ t.rows, ∀ q, toNumericCoerce (r.getD j Cell.na) = .num q →
        (mapAt j toNumericCoerce r ∈ df.rows ↔ mn ≤ q ∧ q ≤ mx)) ∧
      (∀ r ∈ t.rows, toNumericCoerce (r.getD j Cell.na) = Cell.na →
        mapAt j toNumericCoerce r ∉ df.rows) ∧
      (∀ r' ∈ df.rows, ∃ r ∈ t.rows, r' = mapAt j toNumericCoerce r ∧
        ∀ k, k ≠ j → r'.getD k Cell.na = r.getD k Cell.na) := by
  intro t c mn mx j df ret hj h
  simp only [applyM, filter_outliers, hj, Table.mapColumn,
    ScrubResult.ok.injEq] at h
  obtain ⟨h1, _⟩ := h
  subst h1
  have hval : ∀ r : List Cell,
      (mapAt j toNumericCoerce r).getD j Cell.na =
        toNumericCoerce (r.getD j Cell.na) := by
    intro r
    by_cases hlen : j < r.length
    · exact mapAt_getD_self hlen _
    · unfold mapAt
      rw [List.set_eq_of_length_le (Nat.le_of_not_lt hlen),
        getD_of_length_le _ _ _ (Nat.le_of_not_lt hlen)]
      rfl
  refine ⟨rfl, rfl, ?_, ?_, ?_⟩
  · intro r hr q hq
    constructor
    · intro hmem
      have := (List.mem_filter.mp hmem).2
      unfold inBoundsAt at this
      rw [hval r, hq] at this
      simpa using this
    · intro hb
      refine List.mem_filter.mpr ⟨List.mem_map.mpr ⟨r, hr, rfl⟩, ?_⟩
      unfold inBoundsAt
      rw [hval r, hq]
      simpa using hb
  · intro r hr hna hmem
    have := (List.mem_filter.mp hmem).2
    unfold inBoundsAt at this
    rw [hval r, hna] at this
    simp at this
  · intro r' hr'
    obtain ⟨r, hr, rfl⟩ := List.mem_map.mp (List.mem_filter.mp hr').1
    exact ⟨r, hr, rfl, fun k hk => mapAt_getD_ne (fun he => hk he.symm) _ _⟩

/-- Witness for C10: a column with a numeric string, a non-numeric string
and an out-of-range number. -/
theorem filter_outliers_spec_witness :
    colIdx (Table.mk ["v", "w"] [[Cell.str "5", Cell.num 1],
      [Cell.str "zz", Cell.num 2], [Cell.num 20, Cell.num 3]]).cols "v" =
      some 0 ∧
    applyM (.filter_outliers "v" 0 10)
        ⟨["v", "w"], [[Cell.str "5", Cell.num 1], [Cell.str "zz", Cell.num 2],
          [Cell.num 20, Cell.num 3]]⟩ =
      .ok ⟨["v", "w"], [[Cell.num 5, Cell.num 1]]⟩
        ⟨["v", "w"], [[Cell.num 5, Cell.num 1]]⟩ ∧
    (Table.mk ["v", "w"] [[Cell.num 5, Cell.num 1]]).cols = ["v", "w"] :=
  ⟨rfl, by decide, (filter_outliers_spec
    ⟨["v", "w"], [[Cell.str "5", Cell.num 1], [Cell.str "zz", Cell.num 2],
      [Cell.num 20, Cell.num 3]]⟩ "v" 0 10 0
    ⟨["v", "w"], [[Cell.num 5, Cell.num 1]]⟩
    ⟨["v", "w"], [[Cell.num 5, Cell.num 1]]⟩ rfl (by decide)).1⟩

/-- On a present column, `format_column_strings` is the columnwise map of
`fmtCell`. -/
theorem format_column_strings_eq (t : Table) (c casing : String) (j : Nat)
    (hj : colIdx t.cols c = some j) :
    format_column_strings t c casing =
      .ok (t.mapColumn j (fmtCell casing)) (t.mapColumn j (fmtCell casing)) := by
  unfold format_column_strings fmtCell
  rw [hj]
  by_cases hlo : casing = "lower"
  · simp [hlo]
  · by_cases hup : casing = "upper"
    · simp [hlo, hup]
    · simp only [if_neg hlo, if_neg hup]
      have : t.mapColumn j (fun x => x) = t := by
        show Table.mk t.cols (t.rows.map (mapAt j (fun x => x))) = t
        have : t.rows.map (mapAt j (fun x => x)) = t.rows := by
          calc t.rows.map (mapAt j (fun x => x))
              = t.rows.map (fun r => r) := by
                apply List.map_congr_left
                intro r _
                exact mapAt_id j r
            _ = t.rows := List.map_id' t.rows
        rw [this]
      rw [this]

/-- Claim C2 (amended): cleaning operations that touch distinct columns do
commute; here, two `format_column_strings` calls on distinct present
columns give the same table in either order.  (Operations touching the same
rows or cells need not commute, see the counterexample.) -/
theorem format_distinct_columns_commute :
    ∀ (t : Table) (c1 c2 cs1 cs2 : String), c1 ≠ c2 →
      c1 ∈ t.cols → c2 ∈ t.cols →
      runOps [.format_column_strings c1 cs1, .format_column_strings c2 cs2] t =
        runOps [.format_column_strings c2 cs2, .format_column_strings c1 cs1] t := by
  intro t c1 c2 cs1 cs2 hne h1 h2
  obtain ⟨j1, hj1⟩ := colIdx_isSome_of_mem h1
  obtain ⟨j2, hj2⟩ := colIdx_isSome_of_mem h2
  have hjne : j1 ≠ j2 := colIdx_ne_of_ne hj1 hj2 hne
  have hc1 : ∀ f : Cell → Cell,
      colIdx (t.mapColumn j2 f).cols c1 = some j1 := fun _ => hj1
  have hc2 : ∀ f : Cell → Cell,
      colIdx (t.mapColumn j1 f).cols c2 = some j2 := fun _ => hj2
  simp only [runOps, applyM,
    format_column_strings_eq t c1 cs1 j1 hj1,
    format_column_strings_eq t c2 cs2 j2 hj2,
    format_column_strings_eq (t.mapColumn j1 (fmtCell cs1)) c2 cs2 j2 (hc2 _),
    format_column_strings_eq (t.mapColumn j2 (fmtCell cs2)) c1 cs1 j1 (hc1 _)]
  show Except.ok ((t.mapColumn j1 (fmtCell cs1)).mapColumn j2 (fmtCell cs2)) =
    Except.ok ((t.mapColumn j2 (fmtCell cs2)).mapColumn j1 (fmtCell cs1))
  have : (t.mapColumn j1 (fmtCell cs1)).mapColumn j2 (fmtCell cs2) =
      (t.mapColumn j2 (fmtCell cs2)).mapColumn j1 (fmtCell cs1) := by
    show Table.mk t.cols ((t.rows.map (mapAt j1 (fmtCell cs1))).map
        (mapAt j2 (fmtCell cs2))) =
      Table.mk t.cols ((t.rows.map (mapAt j2 (fmtCell cs2))).map
        (mapAt j1 (fmtCell cs1)))
    rw [List.map_map, List.map_map]
    congr 1
    apply List.map_congr_left
    intro r _
    exact mapAt_commute (Ne.symm hjne) (fmtCell cs2) (fmtCell cs1) r
  rw [this]

/-- Witness for C2 at a concrete table and pair of distinct columns. -/
theorem format_distinct_columns_commute_witness :
    decide (("a" : String) = "b") = false ∧
    ("a" ∈ (Table.mk ["a", "b"] [[Cell.str "X", Cell.str "y"]]).cols) ∧
    ("b" ∈ (Table.mk ["a", "b"] [[Cell.str "X", Cell.str "y"]]).cols) ∧
    runOps [.format_column_strings "a" "lower", .format_column_strings "b" "upper"]
        ⟨["a", "b"], [[Cell.str "X", Cell.str "y"]]⟩ =
      runOps [.format_column_strings "b" "upper", .format_column_strings "a" "lower"]
        ⟨["a", "b"], [[Cell.str "X", Cell.str "y"]]⟩ :=
  ⟨rfl, by simp, by simp,
    format_distinct_columns_commute ⟨["a", "b"], [[Cell.str "X", Cell.str "y"]]⟩
      "a" "b" "lower" "upper" (by decide) (by decide) (by decide)⟩

/-- Counterexample to C2 as stated: filling missing values and dropping
duplicate rows do not commute (both succeed in either order, with different
results). -/
theorem dedup_fill_noncommute_cex :
    runOps [Op.handle_missing_data false (some (Cell.str "x")),
        Op.remove_duplicate_records none] ⟨["a"], [[Cell.na], [Cell.str "x"]]⟩ =
      .ok ⟨["a"], [[Cell.str "x"]]⟩ ∧
    runOps [Op.remove_duplicate_records none,
        Op.handle_missing_data false (some (Cell.str "x"))]
        ⟨["a"], [[Cell.na], [Cell.str "x"]]⟩ =
      .ok ⟨["a"], [[Cell.str "x"], [Cell.str "x"]]⟩ ∧
    decide ((Table.mk ["a"] [[Cell.str "x"]]) =
      (Table.mk ["a"] [[Cell.str "x"], [Cell.str "x"]])) = false :=
  ⟨rfl, rfl, rfl⟩

theorem getD_mem_of_lt {α : Type*} {l : List α} {i : Nat} (h : i < l.length)
    (d : α) : l.getD i d ∈ l := by
  induction l generalizing i with
  | nil => simp at h
  | cons x xs ih =>
    cases i with
    | zero => simp [List.getD]
    | succ i =>
      simp only [List.getD_cons_succ]
      exact List.mem_cons_of_mem _ (ih (by simpa using h))

theorem mapWithIdx_getD (f : Nat → List Cell → List Cell) :
    ∀ (l : List (List Cell)) (i0 k : Nat),
      (mapWithIdx f i0 l).getD k [] =
        if k < l.length then f (i0 + k) (l.getD k []) else [] := by
  intro l
  induction l with
  | nil => intro i0 k; simp [mapWithIdx]
  | cons r rs ih =>
    intro i0 k
    cases k with
    | zero => simp [mapWithIdx, List.getD]
    | succ k =>
      simp only [mapWithIdx, List.getD_cons_succ, List.length_cons]
      rw [ih (i0 + 1) k]
      have harith : i0 + 1 + k = i0 + (k + 1) := by omega
      rw [harith]
      by_cases hk : k < rs.length
      · rw [if_pos hk, if_pos (by omega)]
      · rw [if_neg hk, if_neg (by omega)]

theorem colIdx_append :
    ∀ (cols : List String) (c x : String),
      colIdx (cols ++ [x]) c =
        (match colIdx cols c with
         | some j => some j
         | none => if x = c then some cols.length else none) := by
  intro cols
  induction cols with
  | nil => intro c x; simp [colIdx]
  | cons c0 rest ih =>
    intro c x
    by_cases h0 : c0 = c
    · simp [colIdx, h0]
    · simp only [List.cons_append, colIdx, if_neg h0, ih c x]
      cases hcr : colIdx rest c with
      | some j => simp [ih c x, hcr]
      | none =>
        by_cases hx : x = c
        · subst hx
          simp [ih x x, hcr]
        · simp [ih c x, hcr, hx]

theorem cellAt_selectCols (cs : List String) (t : Table) (c : String) (i : Nat)
    (hc : c ∈ cs) : cellAt (selectCols cs t) i c = cellAt t i c := by
  obtain ⟨k, hk⟩ := colIdx_isSome_of_mem hc
  have hkl : k < cs.length := colIdx_lt_length _ _ _ hk
  have hkc : cs.getD k "" = c := colIdx_getD _ _ _ hk
  unfold cellAt selectCols
  simp only [hk]
  by_cases hi : i < t.rows.length
  · rw [getD_map_lt _ [] [] t.rows i hi, getD_map_lt _ Cell.na "" cs k hkl, hkc]
  · rw [getD_of_length_le _ _ _
      (by simpa using Nat.le_of_not_lt hi : (t.rows.map _).length ≤ i)]
    rw [getD_of_length_le _ _ _ (Nat.le_of_not_lt hi)]
    cases colIdx t.cols c <;> simp [List.getD]

theorem cellAt_setColumnSeries_ne (t : Table) (c0 c : String)
    (vals : Nat → Cell) (i : Nat) (hne : c ≠ c0) (hwf : t.Wf) :
    cellAt (setColumnSeries c0 vals t) i c = cellAt t i c := by
  unfold setColumnSeries cellAt
  cases hk : colIdx t.cols c0 with
  | some j0 =>
    cases hcc : colIdx t.cols c with
    | none => rfl
    | some j =>
      have hjne : j ≠ j0 := colIdx_ne_of_ne hcc hk hne
      rw [mapWithIdx_getD]
      by_cases hi : i < t.rows.length
      · rw [if_pos hi]
        show ((t.rows.getD i []).set j0 (vals (0 + i))).getD j Cell.na =
          (t.rows.getD i []).getD j Cell.na
        exact getD_set_ne _ _ _ _ _ (Ne.symm hjne)
      · rw [if_neg hi, getD_of_length_le _ _ _ (Nat.le_of_not_lt hi)]
  | none =>
    rw [colIdx_append]
    cases hcc : colIdx t.cols c with
    | none =>
      have : ¬ (c0 = c) := fun h => hne h.symm
      simp [this]
    | some j =>
      simp only []
      rw [mapWithIdx_getD]
      by_cases hi : i < t.rows.length
      · rw [if_pos hi]
        have hr : (t.rows.getD i []) ∈ t.rows := getD_mem_of_lt hi []
        have hlen : j < (t.rows.getD i []).length := by
          rw [hwf _ hr]
          exact colIdx_lt_length _ _ _ hcc
        show ((t.rows.getD i []) ++ [vals (0 + i)]).getD j Cell.na =
          (t.rows.getD i []).getD j Cell.na
        exact List.getD_append _ _ _ _ hlen
      · rw [if_neg hi, getD_of_length_le _ _ _ (Nat.le_of_not_lt hi)]

theorem cellAt_setColumnSeries_self (t : Table) (c0 : String)
    (vals : Nat → Cell) (i : Nat) (hwf : t.Wf) (hi : i < t.rows.length) :
    cellAt (setColumnSeries c0 vals t) i c0 = vals i := by
  unfold setColumnSeries cellAt
  have hr : (t.rows.getD i []) ∈ t.rows := getD_mem_of_lt hi []
  cases hk : colIdx t.cols c0 with
  | some j0 =>
    simp only [hk]
    rw [mapWithIdx_getD, if_pos hi, Nat.zero_add]
    have hlen : j0 < (t.rows.getD i []).length := by
      rw [hwf _ hr]
      exact colIdx_lt_length _ _ _ hk
    exact getD_set_self _ _ _ _ hlen
  | none =>
    rw [colIdx_append, hk, if_pos rfl]
    have hlen : (t.rows.getD i []).length = t.cols.length := hwf _ hr
    show ((mapWithIdx (fun i r => r ++ [vals i]) 0 t.rows).getD i []).getD
        t.cols.length Cell.na = vals i
    rw [mapWithIdx_getD, if_pos hi, Nat.zero_add]
    rw [List.getD_append_right _ _ _ _ (by omega), hlen, Nat.sub_self]
    rfl

/-- Claim C3 (amended): the loader copies each prepared-CSV field unchanged
into the sale/customer/product rows — except the sale_date field of each
sale row, which is overwritten with 2025-01-01 plus the random day offset
drawn for that row.  Sale rows are read after renaming transaction_id to
sale_id and dropping duplicate sale_id keys (keeping the first). -/
theorem loader_copies_fields_except_sale_date :
    (∀ (csv : Table) (offs : Nat → Nat) (c : String) (i : Nat),
        c ∈ saleColumns → c ≠ "sale_date" → (salesDeduped csv).Wf →
        cellAt (load_transform_sales csv offs) i c =
          cellAt (salesDeduped csv) i c) ∧
    (∀ (csv : Table) (offs : Nat → Nat) (i : Nat), (salesDeduped csv).Wf →
        i < (salesDeduped csv).rows.length →
        cellAt (load_transform_sales csv offs) i "sale_date" =
          Cell.str (dateString2025 (offs i % 365))) ∧
    (∀ (csv : Table) (c : String) (i : Nat), c ∈ customerColumns →
        cellAt (load_transform_customers csv) i c = cellAt csv i c) ∧
    (∀ (csv : Table) (c : String) (i : Nat), c ∈ productColumns →
        cellAt (load_transform_products csv) i c = cellAt csv i c) := by
  refine ⟨?_, ?_, ?_, ?_⟩
  · intro csv offs c i hc hne hwf
    unfold load_transform_sales
    rw [cellAt_selectCols saleColumns _ c i hc]
    exact cellAt_setColumnSeries_ne (salesDeduped csv) "sale_date" c _ i hne hwf
  · intro csv offs i hwf hi
    unfold load_transform_sales
    rw [cellAt_selectCols saleColumns _ "sale_date" i (by simp [saleColumns])]
    exact cellAt_setColumnSeries_self (salesDeduped csv) "sale_date" _ i hwf hi
  · intro csv c i hc
    exact cellAt_selectCols customerColumns csv c i hc
  · intro csv c i hc
    exact cellAt_selectCols productColumns csv c i hc

/-- Witness for C3 at a concrete prepared sales CSV. -/
theorem loader_copies_fields_except_sale_date_witness :
    ("sale_amount" ∈ saleColumns) ∧
    decide (("sale_amount" : String) = "sale_date") = false ∧
    (salesDeduped ⟨["transaction_id", "customer_id", "product_id", "store_id",
        "campaign_id", "sale_amount", "sale_date", "discount_percent"],
      [[Cell.num 1, Cell.num 2, Cell.num 3, Cell.num 401, Cell.num 0,
        Cell.num 50, Cell.str "2024-06-30", Cell.num 10]]⟩).Wf ∧
    cellAt (load_transform_sales ⟨["transaction_id", "customer_id",
        "product_id", "store_id", "campaign_id", "sale_amount", "sale_date",
        "discount_percent"],
      [[Cell.num 1, Cell.num 2, Cell.num 3, Cell.num 401, Cell.num 0,
        Cell.num 50, Cell.str "2024-06-30", Cell.num 10]]⟩ (fun _ => 0))
        0 "sale_amount" =
      cellAt (salesDeduped ⟨["transaction_id", "customer_id", "product_id",
        "store_id", "campaign_id", "sale_amount", "sale_date",
        "discount_percent"],
      [[Cell.num 1, Cell.num 2, Cell.num 3, Cell.num 401, Cell.num 0,
        Cell.num 50, Cell.str "2024-06-30", Cell.num 10]]⟩) 0 "sale_amount" :=
  ⟨by decide, rfl, by decide,
    loader_copies_fields_except_sale_date.1 _ (fun _ => 0) "sale_amount" 0
      (by decide) (by decide) (by decide)⟩

/-- Counterexample to C3 as stated: the sale_date field of the inserted
sale row is not the prepared-CSV value — the loader overwrites it with a
randomized 2025 date (here the offset is 0, giving 2025-01-01, while the
source row says 2024-06-30). -/
theorem sale_date_overwritten_cex :
    cellAt (load_transform_sales ⟨["transaction_id", "customer_id",
        "product_id", "store_id", "campaign_id", "sale_amount", "sale_date",
        "discount_percent"],
      [[Cell.num 1, Cell.num 2, Cell.num 3, Cell.num 401, Cell.num 0,
        Cell.num 50, Cell.str "2024-06-30", Cell.num 10]]⟩ (fun _ => 0))
        0 "sale_date" = Cell.str "2025-01-01" ∧
    cellAt (⟨["transaction_id", "customer_id", "product_id", "store_id",
        "campaign_id", "sale_amount", "sale_date", "discount_percent"],
      [[Cell.num 1, Cell.num 2, Cell.num 3, Cell.num 401, Cell.num 0,
        Cell.num 50, Cell.str "2024-06-30", Cell.num 10]]⟩ : Table)
        0 "sale_date" = Cell.str "2024-06-30" ∧
    decide (Cell.str "2025-01-01" = Cell.str "2024-06-30") = false :=
  ⟨rfl, rfl, rfl⟩
